import Mathlib

/-!
Shallow embedding of the `lily` structured logging library
(`src/logger.ts`, `src/types.ts`, `src/environment.ts`).

JavaScript objects with reference semantics are modelled by a small
explicit heap (`World`): scope arrays and transport arrays are heap
cells (indices into lists), loggers are records holding cell
references, and every mutating method of the `Logger` class becomes a
function `World → ... → World`.  Transport objects themselves are
identified by allocation order (`ntrans` counts them); their `log`
behaviour is opaque to the core and is supplied externally as a
function from transport id and entry to an outcome.  The hosting
environment (`process.env` / browser storage, read through `getEnv`)
is abstracted as a partial map from variable names to strings.
-/

namespace Lily

/-- The `LogLevel` enum of `src/types.ts`. -/
inductive LogLevel where
  | TRACE | DEBUG | INFO | WARN | ERROR | FATAL | OFF
deriving DecidableEq, Repr

/-- Numeric value of each enum member (`TRACE = 0` … `OFF = 6`). -/
def levelNum : LogLevel → Nat
  | .TRACE => 0
  | .DEBUG => 1
  | .INFO => 2
  | .WARN => 3
  | .ERROR => 4
  | .FATAL => 5
  | .OFF => 6

/-- Name of each enum member, as produced by the TypeScript
reverse mapping `LogLevel[n]`. -/
def levelName : LogLevel → String
  | .TRACE => "TRACE"
  | .DEBUG => "DEBUG"
  | .INFO => "INFO"
  | .WARN => "WARN"
  | .ERROR => "ERROR"
  | .FATAL => "FATAL"
  | .OFF => "OFF"

/-- A value read out of the compiled `LogLevel` enum object.  A
TypeScript numeric enum compiles to an object holding both the forward
entries (`"TRACE" ↦ 0`, …) and the reverse entries (`"0" ↦ "TRACE"`,
…), so indexing it can yield a number or a name string. -/
inductive EnumVal where
  | lv (l : LogLevel)
  | nm (s : String)
deriving DecidableEq, Repr

/-- Forward lookup: name key to member. -/
def levelOfName : String → Option LogLevel
  | "TRACE" => some .TRACE
  | "DEBUG" => some .DEBUG
  | "INFO" => some .INFO
  | "WARN" => some .WARN
  | "ERROR" => some .ERROR
  | "FATAL" => some .FATAL
  | "OFF" => some .OFF
  | _ => none

/-- Reverse-mapping lookup: numeric-string key to member. -/
def levelOfDigit : String → Option LogLevel
  | "0" => some .TRACE
  | "1" => some .DEBUG
  | "2" => some .INFO
  | "3" => some .WARN
  | "4" => some .ERROR
  | "5" => some .FATAL
  | "6" => some .OFF
  | _ => none

/-- Property read `LogLevel[s]` on the compiled enum object, defined on
exactly the keys for which `s in LogLevel` is true: name keys yield the
numeric member, numeric-string keys yield the member's name string. -/
def enumLookup (s : String) : Option EnumVal :=
  match levelOfName s with
  | some l => some (.lv l)
  | none => (levelOfDigit s).map (fun l => .nm (levelName l))

/-- Opaque metadata / argument values (`unknown` in the source). -/
inductive MVal where
  | num (n : Int)
  | str (s : String)
deriving DecidableEq, Repr

/-- A JavaScript object used as a string-keyed map. -/
abbrev Obj := String → Option MVal

def objEmpty : Obj := fun _ => none

/-- Object spread `\x7b...a, ...b\x7d`: keys of `b` override keys of `a`. -/
def objSpread (a b : Obj) : Obj := fun k => (b k).orElse (fun _ => a k)

/-- The `LoggerOptions` record of `src/types.ts`; `none` means the
property is absent. -/
structure LoggerOptions where
  timestamp : Option Bool := none
  colourize : Option Bool := none
  level : Option EnumVal := none
  metadata : Option Obj := none

instance : Inhabited LoggerOptions := ⟨{}⟩

/-- The hosting environment, abstracting `process.env` (Node) or the
`__LILY_OPTS` storage blob (browser) behind `getEnv` of
`src/environment.ts`. -/
abbrev Env := String → Option String

/-- `getEnv(key)`: read one environment variable. -/
def getEnv (env : Env) (k : String) : Option String := env k

/-- `toUpperCase()`, on its ASCII fragment: per-character uppercase of
`a`…`z`.  JavaScript's `toUpperCase` applies full Unicode case
mappings (e.g. it sends `ı` U+0131 to `I` and the ligature `ﬀ` U+FB00
to `FF`), which this per-character model does not reproduce, so the
two functions coincide exactly on strings of ASCII characters;
theorems that quantify over `LOG_LEVEL` values therefore carry an
all-ASCII hypothesis.  (Defined over the character list rather than
through `String.map`, whose well-founded recursion does not reduce in
the kernel.) -/
def jsToUpper (s : String) : String := String.mk (s.data.map Char.toUpper)

/-- JavaScript truthiness of a `string | undefined` value. -/
def envTruthy : Option String → Bool
  | none => false
  | some s => s ≠ ""

/-- `initializeFromEnvironment` of `src/logger.ts`: uppercase the
`LOG_LEVEL` variable, and if it is truthy and a key of the `LogLevel`
enum object (`envLevel in LogLevel`), store `LogLevel[envLevel]` into
`options.level`; then clear `colourize` when `NO_COLOUR` is truthy or
`NODE_ENV` is exactly `"test"`. -/
def applyEnvLevel (env : Env) (o : LoggerOptions) : LoggerOptions :=
  match (getEnv env "LOG_LEVEL").map jsToUpper with
  | none => o
  | some u =>
    if u ≠ "" then
      match enumLookup u with
      | some v => { o with level := some v }
      | none => o
    else o

def applyEnvColour (env : Env) (o : LoggerOptions) : LoggerOptions :=
  if envTruthy (getEnv env "NO_COLOUR") || (getEnv env "NODE_ENV" == some "test") then
    { o with colourize := some false }
  else o

def initFromEnvironment (env : Env) (o : LoggerOptions) : LoggerOptions :=
  applyEnvColour env (applyEnvLevel env o)

/-- One `Logger` instance: references into the heap for its `scope`
array and its `transports` array, plus its `options` record. -/
structure LoggerObj where
  scopeRef : Nat
  options : LoggerOptions
  tarrRef : Nat

/-- The heap: `scopes` and `tarrs` are the allocated string-array and
transport-array cells, `ntrans` counts allocated transport objects
(ids `0 .. ntrans-1`), `loggers` the allocated `Logger` instances, and
`globalLevel` is the static field `Logger.globalLevel`. -/
structure World where
  globalLevel : LogLevel
  scopes : List (List String)
  tarrs : List (List Nat)
  ntrans : Nat
  loggers : List LoggerObj

def getLogger (w : World) (i : Nat) : LoggerObj :=
  w.loggers.getD i ⟨0, {}, 0⟩

/-- Contents of a logger's `scope` array. -/
def scopeContents (w : World) (i : Nat) : List String :=
  w.scopes.getD (getLogger w i).scopeRef []

/-- Contents of a logger's `transports` array. -/
def tarrContents (w : World) (i : Nat) : List Nat :=
  w.tarrs.getD (getLogger w i).tarrRef []

/-- The `scope` constructor argument: `string | string[]`. -/
inductive ScopeArg where
  | one (s : String)
  | many (ss : List String)

def scopeArgToList : ScopeArg → List String
  | .one s => [s]
  | .many ss => ss

/-- How the constructor receives its scope array: a freshly created
array (string argument, or an array literal built by the caller), or a
reference to an already-allocated array cell (as when `withMetadata`
passes `this.scope`). -/
inductive ScopeRefArg where
  | freshScope (l : List String)
  | sharedScope (i : Nat)

/-- The constructor's option spread
`\x7b timestamp: true, colourize: true, level: Logger.globalLevel, ...options \x7d`:
a property present in `options` wins over the default. -/
def mergeDefaults (glob : LogLevel) (o : LoggerOptions) : LoggerOptions :=
  { timestamp := (o.timestamp).orElse (fun _ => some true)
    colourize := (o.colourize).orElse (fun _ => some true)
    level := (o.level).orElse (fun _ => some (.lv glob))
    metadata := o.metadata }

/-- Record spread `\x7b...a, ...b\x7d` on two `LoggerOptions` values. -/
def spreadOptions (a b : LoggerOptions) : LoggerOptions :=
  { timestamp := (b.timestamp).orElse (fun _ => a.timestamp)
    colourize := (b.colourize).orElse (fun _ => a.colourize)
    level := (b.level).orElse (fun _ => a.level)
    metadata := (b.metadata).orElse (fun _ => a.metadata) }

/-- The `Logger` constructor: store the scope array (kept by reference
when an array is passed), merge option defaults reading the *current*
global level, allocate a fresh empty `transports` array, push one
freshly constructed default `ConsoleTransport` (the array is always
empty at this point), then run `initializeFromEnvironment`.  Returns
the new logger's id. -/
def constructLogger (env : Env) (w : World) (sc : ScopeRefArg) (opts : LoggerOptions) :
    World × Nat :=
  let (scopes1, sref) :=
    match sc with
    | .freshScope l => (w.scopes ++ [l], w.scopes.length)
    | .sharedScope i => (w.scopes, i)
  let o := mergeDefaults w.globalLevel opts
  let tref := w.tarrs.length
  let tid := w.ntrans
  let o2 := initFromEnvironment env o
  ({ globalLevel := w.globalLevel
     scopes := scopes1
     tarrs := w.tarrs ++ [[tid]]
     ntrans := w.ntrans + 1
     loggers := w.loggers ++ [⟨sref, o2, tref⟩] },
   w.loggers.length)

/-- `new Logger(scope, options)` from user code: a string becomes a
fresh one-element array, an array literal is a fresh array. -/
def newLoggerW (env : Env) (w : World) (s : ScopeArg) (opts : LoggerOptions) :
    World × Nat :=
  constructLogger env w (.freshScope (scopeArgToList s)) opts

/-- `Logger.setGlobalLevel(level)`. -/
def setGlobalLevelW (w : World) (l : LogLevel) : World :=
  { w with globalLevel := l }

/-- Allocation of a transport object by user code (`new SomeTransport()`). -/
def newTransportW (w : World) : World × Nat :=
  ({ w with ntrans := w.ntrans + 1 }, w.ntrans)

/-- `addTransport(t)`: push onto this logger's `transports` array. -/
def addTransportW (w : World) (i : Nat) (t : Nat) : World :=
  { w with tarrs := w.tarrs.set (getLogger w i).tarrRef (tarrContents w i ++ [t]) }

/-- `indexOf` + `splice(index, 1)`: remove the first occurrence, no-op
when absent. -/
def removeFirst (l : List Nat) (x : Nat) : List Nat :=
  match l with
  | [] => []
  | y :: ys => if y = x then ys else y :: removeFirst ys x

/-- `removeTransport(t)`. -/
def removeTransportW (w : World) (i : Nat) (t : Nat) : World :=
  { w with tarrs := w.tarrs.set (getLogger w i).tarrRef (removeFirst (tarrContents w i) t) }

/-- `clearTransports()`: `this.transports = []` rebinds the field to a
freshly allocated empty array. -/
def clearTransportsW (w : World) (i : Nat) : World :=
  { w with
    tarrs := w.tarrs ++ [[]]
    loggers := w.loggers.set i { getLogger w i with tarrRef := w.tarrs.length } }

/-- `child(scope, options)`: concatenate the parent scope with the
extra scope into a fresh array, construct a `Logger` with the spread
`\x7b...this.options, ...options\x7d`, then `clearTransports` on the child and
push every parent transport, in order, onto the child's array. -/
def childW (env : Env) (w : World) (pid : Nat) (s : ScopeArg) (opts : LoggerOptions) :
    World × Nat :=
  let newScope :=
    match s with
    | .many ss => scopeContents w pid ++ ss
    | .one str => scopeContents w pid ++ [str]
  let (w1, cid) :=
    constructLogger env w (.freshScope newScope)
      (spreadOptions (getLogger w pid).options opts)
  let w2 := clearTransportsW w1 cid
  let w3 := (tarrContents w2 pid).foldl (fun acc t => addTransportW acc cid t) w2
  (w3, cid)

/-- `withMetadata(metadata)`: construct a `Logger`, passing
`this.scope` (the same array reference) and
`\x7b...this.options, metadata: \x7b...this.options.metadata, ...metadata\x7d\x7d`. -/
def withMetadataW (env : Env) (w : World) (i : Nat) (extra : Obj) : World × Nat :=
  let l := getLogger w i
  let base := (l.options.metadata).getD objEmpty
  constructLogger env w (.sharedScope l.scopeRef)
    { l.options with metadata := some (objSpread base extra) }

/-- JavaScript `>=` between the numeric entry level and the stored
effective level.  When environment initialization has stored a
reverse-mapped name string into `options.level`, the comparison
`number >= string` coerces the non-numeric name to NaN and is false. -/
def jsGE (l : LogLevel) (e : EnumVal) : Bool :=
  match e with
  | .lv e0 => levelNum e0 ≤ levelNum l
  | .nm _ => false

/-- `shouldLog(level)`: compare against
`this.options.level ?? Logger.globalLevel`. -/
def shouldLog (w : World) (i : Nat) (lvl : LogLevel) : Bool :=
  jsGE lvl (((getLogger w i).options.level).getD (.lv w.globalLevel))

/-- The `LogEntry` record of `src/types.ts`.  Its `scope` field is an
array, hence a heap cell reference; `timestamp` abstracts the
`new Date()` instant as the time supplied to the call. -/
structure LogEntry where
  level : LogLevel
  message : String
  timestamp : Nat
  scopeRef : Nat
  args : List MVal
  metadata : Option Obj

/-- What a transport's `log(entry)` call does: return normally, return
a promise (which may later reject with an error message), or throw
synchronously. -/
inductive TOutcome where
  | retUnit
  | retPromise (rej : Option String)
  | throwErr (e : String)

/-- One line written to the diagnostic sink (`console.error`): the
source tags synchronous failures `"transport error:"` and asynchronous
ones `"Transport error:"`. -/
inductive Diag where
  | syncError (e : String)
  | asyncError (e : String)
deriving DecidableEq

/-- External description of every transport's behaviour, indexed by
transport id.  Transport internals are outside the core. -/
abbrev Behaviors := Nat → LogEntry → TOutcome

/-- The raw call `transport.log(entry)`: `.error` is a synchronous
throw escaping the call, `.ok none` a plain return, `.ok (some rej)` a
returned promise with its eventual rejection, if any. -/
def transportCall (b : Behaviors) (t : Nat) (e : LogEntry) :
    Except String (Option (Option String)) :=
  match b t e with
  | .throwErr err => .error err
  | .retUnit => .ok none
  | .retPromise rej => .ok (some rej)

/-- The fan-out loop of `Logger.log`: each call sits in a
`try ... catch` that reports a synchronous throw to the diagnostic
sink and continues; a returned promise gets a `.catch` handler that
reports an eventual rejection.  Returns the calls made (transport id
with the entry handed to it, in order) and the diagnostics. -/
def fanout (b : Behaviors) (ts : List Nat) (e : LogEntry) :
    List (Nat × LogEntry) × List Diag :=
  match ts with
  | [] => ([], [])
  | t :: rest =>
    let d :=
      match transportCall b t e with
      | .error err => [Diag.syncError err]
      | .ok none => []
      | .ok (some none) => []
      | .ok (some (some err)) => [Diag.asyncError err]
    let (cs, ds) := fanout b rest e
    ((t, e) :: cs, d ++ ds)

/-- Observable result of one `log` call: the entry constructed (if
any), the transport invocations, and the diagnostic output. -/
structure LogResult where
  entry : Option LogEntry
  calls : List (Nat × LogEntry)
  diags : List Diag

/-- The private `log(level, message, ...args)` method: return at once
when `shouldLog` fails; otherwise build one `LogEntry` whose `scope`
is a freshly allocated copy `[...this.scope]` of the logger's scope
array, and fan it out to every transport. -/
def logW (b : Behaviors) (w : World) (i : Nat) (lvl : LogLevel)
    (msg : String) (args : List MVal) (now : Nat) : World × LogResult :=
  if shouldLog w i lvl then
    let l := getLogger w i
    let e : LogEntry :=
      ⟨lvl, msg, now, w.scopes.length, args, l.options.metadata⟩
    let w1 := { w with scopes := w.scopes ++ [w.scopes.getD l.scopeRef []] }
    let (calls, diags) := fanout b (w1.tarrs.getD l.tarrRef []) e
    (w1, ⟨some e, calls, diags⟩)
  else
    (w, ⟨none, [], []⟩)

/-- `trace(message, ...args)`. -/
def traceW (b : Behaviors) (w : World) (i : Nat) (msg : String)
    (args : List MVal) (now : Nat) : World × LogResult :=
  logW b w i .TRACE msg args now

/-- `debug(message, ...args)`. -/
def debugW (b : Behaviors) (w : World) (i : Nat) (msg : String)
    (args : List MVal) (now : Nat) : World × LogResult :=
  logW b w i .DEBUG msg args now

/-- `info(message, ...args)`. -/
def infoW (b : Behaviors) (w : World) (i : Nat) (msg : String)
    (args : List MVal) (now : Nat) : World × LogResult :=
  logW b w i .INFO msg args now

/-- `warn(message, ...args)`. -/
def warnW (b : Behaviors) (w : World) (i : Nat) (msg : String)
    (args : List MVal) (now : Nat) : World × LogResult :=
  logW b w i .WARN msg args now

/-- `error(message, ...args)`. -/
def errorW (b : Behaviors) (w : World) (i : Nat) (msg : String)
    (args : List MVal) (now : Nat) : World × LogResult :=
  logW b w i .ERROR msg args now

/-- `fatal(message, ...args)`. -/
def fatalW (b : Behaviors) (w : World) (i : Nat) (msg : String)
    (args : List MVal) (now : Nat) : World × LogResult :=
  logW b w i .FATAL msg args now

/-- Reading a dispatched entry's scope array from the heap. -/
def readEntryScope (w : World) (e : LogEntry) : List String :=
  w.scopes.getD e.scopeRef []

/-- Every operation of the library's public surface, for stating frame
properties over arbitrary later activity. -/
inductive Op where
  | opNewLogger (s : ScopeArg) (opts : LoggerOptions)
  | opChild (pid : Nat) (s : ScopeArg) (opts : LoggerOptions)
  | opWithMetadata (i : Nat) (extra : Obj)
  | opAddTransport (i : Nat) (t : Nat)
  | opRemoveTransport (i : Nat) (t : Nat)
  | opClearTransports (i : Nat)
  | opSetGlobalLevel (l : LogLevel)
  | opNewTransport
  | opLog (i : Nat) (lvl : LogLevel) (msg : String) (args : List MVal) (now : Nat)

/-- State effect of one operation. -/
def applyOp (env : Env) (b : Behaviors) (w : World) : Op → World
  | .opNewLogger s opts => (newLoggerW env w s opts).1
  | .opChild pid s opts => (childW env w pid s opts).1
  | .opWithMetadata i extra => (withMetadataW env w i extra).1
  | .opAddTransport i t => addTransportW w i t
  | .opRemoveTransport i t => removeTransportW w i t
  | .opClearTransports i => clearTransportsW w i
  | .opSetGlobalLevel l => setGlobalLevelW w l
  | .opNewTransport => (newTransportW w).1
  | .opLog i lvl msg args now => (logW b w i lvl msg args now).1

/-- State effect of a sequence of operations, first to last. -/
def applyOps (env : Env) (b : Behaviors) (ops : List Op) (w : World) : World :=
  ops.foldl (applyOp env b) w

/-- Well-formed heap: every logger's cell references are allocated. -/
def WF (w : World) : Prop :=
  ∀ l ∈ w.loggers, l.scopeRef < w.scopes.length ∧ l.tarrRef < w.tarrs.length

instance (w : World) : Decidable (WF w) := by
  unfold WF; infer_instance

/-! ### Concrete fixtures and entry constructor -/

/-- The entry built by a passing `log` call. -/
def mkEntry (w : World) (i : Nat) (lvl : LogLevel) (msg : String)
    (args : List MVal) (now : Nat) : LogEntry :=
  ⟨lvl, msg, now, w.scopes.length, args, (getLogger w i).options.metadata⟩

/-- The `LOG_LEVEL` value, if present, consists of ASCII characters —
on which `jsToUpper` agrees with JavaScript's Unicode-aware
`toUpperCase` — and uppercases to something that is not a key of the
compiled `LogLevel` enum object.  Non-ASCII strings are excluded
because Unicode case mapping can turn them into recognized keys
(`ınfo` uppercases to `INFO` in JavaScript). -/
def envLevelUnrecognized (env : Env) : Bool :=
  match getEnv env "LOG_LEVEL" with
  | none => true
  | some s => s.data.all (fun c => c.toNat < 128) && (enumLookup (jsToUpper s)).isNone

/-- Process start: global level INFO, nothing allocated. -/
def initialWorld : World := ⟨.INFO, [], [], 0, []⟩

/-- An environment with no variables set. -/
def emptyEnv : Env := fun _ => none

/-- Transports that always return normally. -/
def unitBehaviors : Behaviors := fun _ _ => .retUnit

/-! ### C1 -/

def c1Mk : World × Nat := newLoggerW emptyEnv initialWorld (.one "app") {}

def c1After : World := setGlobalLevelW c1Mk.1 .ERROR

def c2Mk : World × Nat := newLoggerW emptyEnv initialWorld (.one "app") {}

def c2T : World × Nat := newTransportW c2Mk.1

def c2W : World := addTransportW c2T.1 c2Mk.2 c2T.2

def c2D : World × Nat := withMetadataW emptyEnv c2W c2Mk.2 objEmpty

def c3Env : Env := fun k => if k = "LOG_LEVEL" then some "3" else none

def c3Mk : World × Nat := newLoggerW c3Env initialWorld (.one "app") {}

def c3MkDefault : World × Nat := newLoggerW emptyEnv initialWorld (.one "app") {}

def c3WitnessEnv : Env := fun k => if k = "LOG_LEVEL" then some "VERBOSE" else none

def c4World : World :=
  ⟨.INFO, [["app"]], [[5, 7]], 8, [⟨0, { level := some (.lv .INFO) }, 0⟩]⟩

def c4B : Behaviors := fun t _ => if t = 5 then .throwErr "boom" else .retUnit

def c5World : World :=
  ⟨.INFO, [[]], [[0]], 1, [⟨0, { level := some (.lv .WARN) }, 0⟩]⟩

def c5OffWorld : World :=
  ⟨.INFO, [[]], [[0]], 1, [⟨0, { level := some (.lv .OFF) }, 0⟩]⟩

def c6World : World :=
  ⟨.INFO, [["app"]], [[0]], 1, [⟨0, { level := some (.lv .ERROR) }, 0⟩]⟩

def c7Parent : World × Nat := newLoggerW emptyEnv initialWorld (.one "app") {}

def c7Api : World × Nat := childW emptyEnv c7Parent.1 c7Parent.2 (.one "api") {}

def c8Obj : Obj := fun k =>
  if k = "a" then some (.num 1) else if k = "b" then some (.num 2) else none

def c8Extra : Obj := fun k =>
  if k = "b" then some (.num 3) else if k = "c" then some (.num 4) else none

def c8World : World :=
  ⟨.INFO, [["app"]], [[0]], 1, [⟨0, { metadata := some c8Obj }, 0⟩]⟩

def c8D : World × Nat := withMetadataW emptyEnv c8World 0 c8Extra

def c9Parent : World × Nat := newLoggerW emptyEnv initialWorld (.one "app") {}

def c9Child : World × Nat := childW emptyEnv c9Parent.1 c9Parent.2 (.one "x") {}

def c10Mk : World × Nat := newLoggerW emptyEnv initialWorld (.many ["app", "db"]) {}

/-! ### List access helper lemmas -/

theorem getD_set_self {α : Type} (x d : α) :
    ∀ (l : List α) (i : Nat), i < l.length → (l.set i x).getD i d = x := by
  intro l
  induction l with
  | nil => intro i h; simp at h
  | cons a t ih =>
    intro i h
    cases i with
    | zero => rfl
    | succ j => exact ih j (Nat.lt_of_succ_lt_succ h)

theorem getD_set_ne {α : Type} (x d : α) :
    ∀ (l : List α) (i j : Nat), i ≠ j → (l.set i x).getD j d = l.getD j d := by
  intro l
  induction l with
  | nil => intro i j _; simp
  | cons a t ih =>
    intro i j hne
    cases i with
    | zero =>
      cases j with
      | zero => exact absurd rfl hne
      | succ k => rfl
    | succ i0 =>
      cases j with
      | zero => rfl
      | succ k => exact ih i0 k (fun h => hne (by rw [h]))

theorem getD_snoc_self {α : Type} (l : List α) (x d : α) :
    (l ++ [x]).getD l.length d = x := by
  rw [List.getD_append_right _ _ _ _ (Nat.le_refl _)]
  simp

/-! ### Frame facts for the single-cell operations -/

theorem addTransportW_loggers (w : World) (i t : Nat) :
    (addTransportW w i t).loggers = w.loggers := rfl

theorem addTransportW_scopes (w : World) (i t : Nat) :
    (addTransportW w i t).scopes = w.scopes := rfl

theorem addTransportW_tarrs_length (w : World) (i t : Nat) :
    (addTransportW w i t).tarrs.length = w.tarrs.length := by
  simp [addTransportW]

theorem getLogger_addTransportW (w : World) (i t j : Nat) :
    getLogger (addTransportW w i t) j = getLogger w j := rfl

theorem tarrContents_addTransportW_self (w : World) (i t : Nat)
    (h : (getLogger w i).tarrRef < w.tarrs.length) :
    tarrContents (addTransportW w i t) i = tarrContents w i ++ [t] := by
  simp only [tarrContents, addTransportW, getLogger]
  exact getD_set_self _ _ _ _ h

theorem tarrs_getD_addTransportW_ne (w : World) (i t r : Nat)
    (h : (getLogger w i).tarrRef ≠ r) :
    (addTransportW w i t).tarrs.getD r [] = w.tarrs.getD r [] := by
  simp only [addTransportW]
  exact getD_set_ne _ _ _ _ _ h

theorem removeTransportW_loggers (w : World) (i t : Nat) :
    (removeTransportW w i t).loggers = w.loggers := rfl

theorem getLogger_removeTransportW (w : World) (i t j : Nat) :
    getLogger (removeTransportW w i t) j = getLogger w j := rfl

theorem removeTransportW_scopes (w : World) (i t : Nat) :
    (removeTransportW w i t).scopes = w.scopes := rfl

theorem tarrContents_removeTransportW_self (w : World) (i t : Nat)
    (h : (getLogger w i).tarrRef < w.tarrs.length) :
    tarrContents (removeTransportW w i t) i = removeFirst (tarrContents w i) t := by
  simp only [tarrContents, removeTransportW, getLogger]
  exact getD_set_self _ _ _ _ h

theorem tarrs_getD_removeTransportW_ne (w : World) (i t r : Nat)
    (h : (getLogger w i).tarrRef ≠ r) :
    (removeTransportW w i t).tarrs.getD r [] = w.tarrs.getD r [] := by
  simp only [removeTransportW]
  exact getD_set_ne _ _ _ _ _ h

theorem clearTransportsW_scopes (w : World) (i : Nat) :
    (clearTransportsW w i).scopes = w.scopes := rfl

theorem clearTransportsW_tarrs (w : World) (i : Nat) :
    (clearTransportsW w i).tarrs = w.tarrs ++ [[]] := rfl

theorem getLogger_clearTransportsW_ne (w : World) (i j : Nat) (h : i ≠ j) :
    getLogger (clearTransportsW w i) j = getLogger w j := by
  simp only [clearTransportsW, getLogger]
  exact getD_set_ne _ _ _ _ _ h

theorem getLogger_clearTransportsW_self (w : World) (i : Nat)
    (h : i < w.loggers.length) :
    getLogger (clearTransportsW w i) i =
      { getLogger w i with tarrRef := w.tarrs.length } := by
  simp only [clearTransportsW, getLogger]
  exact getD_set_self _ _ _ _ h

theorem tarrContents_clearTransportsW_self (w : World) (i : Nat)
    (h : i < w.loggers.length) :
    tarrContents (clearTransportsW w i) i = [] := by
  simp only [tarrContents, getLogger_clearTransportsW_self w i h,
    clearTransportsW_tarrs]
  exact getD_snoc_self _ _ _

/-! ### Facts about the constructor -/

theorem constructLogger_snd (env : Env) (w : World) (sc : ScopeRefArg)
    (opts : LoggerOptions) :
    (constructLogger env w sc opts).2 = w.loggers.length := by
  cases sc <;> rfl

theorem constructLogger_tarrs (env : Env) (w : World) (sc : ScopeRefArg)
    (opts : LoggerOptions) :
    (constructLogger env w sc opts).1.tarrs = w.tarrs ++ [[w.ntrans]] := by
  cases sc <;> rfl

theorem constructLogger_globalLevel (env : Env) (w : World) (sc : ScopeRefArg)
    (opts : LoggerOptions) :
    (constructLogger env w sc opts).1.globalLevel = w.globalLevel := by
  cases sc <;> rfl

theorem constructLogger_scopes_fresh (env : Env) (w : World) (l : List String)
    (opts : LoggerOptions) :
    (constructLogger env w (.freshScope l) opts).1.scopes = w.scopes ++ [l] := rfl

theorem constructLogger_scopes_shared (env : Env) (w : World) (i : Nat)
    (opts : LoggerOptions) :
    (constructLogger env w (.sharedScope i) opts).1.scopes = w.scopes := rfl

theorem constructLogger_loggers_fresh (env : Env) (w : World) (l : List String)
    (opts : LoggerOptions) :
    (constructLogger env w (.freshScope l) opts).1.loggers =
      w.loggers ++ [⟨w.scopes.length,
        initFromEnvironment env (mergeDefaults w.globalLevel opts),
        w.tarrs.length⟩] := rfl

theorem constructLogger_loggers_shared (env : Env) (w : World) (i : Nat)
    (opts : LoggerOptions) :
    (constructLogger env w (.sharedScope i) opts).1.loggers =
      w.loggers ++ [⟨i,
        initFromEnvironment env (mergeDefaults w.globalLevel opts),
        w.tarrs.length⟩] := rfl

theorem getLogger_constructLogger_lt (env : Env) (w : World) (sc : ScopeRefArg)
    (opts : LoggerOptions) (j : Nat) (h : j < w.loggers.length) :
    getLogger (constructLogger env w sc opts).1 j = getLogger w j := by
  cases sc <;>
    · simp only [getLogger, constructLogger]
      exact List.getD_append _ _ _ _ h

theorem getLogger_constructLogger_fresh (env : Env) (w : World) (l : List String)
    (opts : LoggerOptions) :
    getLogger (constructLogger env w (.freshScope l) opts).1 w.loggers.length =
      ⟨w.scopes.length,
        initFromEnvironment env (mergeDefaults w.globalLevel opts),
        w.tarrs.length⟩ := by
  simp only [getLogger, constructLogger_loggers_fresh]
  exact getD_snoc_self _ _ _

theorem getLogger_constructLogger_shared (env : Env) (w : World) (i : Nat)
    (opts : LoggerOptions) :
    getLogger (constructLogger env w (.sharedScope i) opts).1 w.loggers.length =
      ⟨i, initFromEnvironment env (mergeDefaults w.globalLevel opts),
        w.tarrs.length⟩ := by
  simp only [getLogger, constructLogger_loggers_shared]
  exact getD_snoc_self _ _ _

/-! ### Facts about the transport-copy loop of `child` -/

theorem foldl_addTransportW_loggers (cid : Nat) :
    ∀ (ts : List Nat) (w : World),
      (ts.foldl (fun acc t => addTransportW acc cid t) w).loggers = w.loggers := by
  intro ts
  induction ts with
  | nil => intro w; rfl
  | cons t rest ih =>
    intro w
    simpa using ih (addTransportW w cid t)

theorem foldl_addTransportW_scopes (cid : Nat) :
    ∀ (ts : List Nat) (w : World),
      (ts.foldl (fun acc t => addTransportW acc cid t) w).scopes = w.scopes := by
  intro ts
  induction ts with
  | nil => intro w; rfl
  | cons t rest ih =>
    intro w
    simpa using ih (addTransportW w cid t)

theorem foldl_addTransportW_globalLevel (cid : Nat) :
    ∀ (ts : List Nat) (w : World),
      (ts.foldl (fun acc t => addTransportW acc cid t) w).globalLevel =
        w.globalLevel := by
  intro ts
  induction ts with
  | nil => intro w; rfl
  | cons t rest ih =>
    intro w
    simpa using ih (addTransportW w cid t)

theorem foldl_addTransportW_tarrs_length (cid : Nat) :
    ∀ (ts : List Nat) (w : World),
      (ts.foldl (fun acc t => addTransportW acc cid t) w).tarrs.length =
        w.tarrs.length := by
  intro ts
  induction ts with
  | nil => intro w; rfl
  | cons t rest ih =>
    intro w
    simp only [List.foldl_cons]
    rw [ih (addTransportW w cid t), addTransportW_tarrs_length]

theorem foldl_addTransportW_contents (cid : Nat) :
    ∀ (ts : List Nat) (w : World),
      (getLogger w cid).tarrRef < w.tarrs.length →
      tarrContents (ts.foldl (fun acc t => addTransportW acc cid t) w) cid =
        tarrContents w cid ++ ts := by
  intro ts
  induction ts with
  | nil => intro w _; simp
  | cons t rest ih =>
    intro w h
    simp only [List.foldl_cons]
    rw [ih (addTransportW w cid t)
        (by rw [getLogger_addTransportW, addTransportW_tarrs_length]; exact h),
      tarrContents_addTransportW_self w cid t h]
    simp

theorem foldl_addTransportW_getD_ne (cid r : Nat) :
    ∀ (ts : List Nat) (w : World),
      (getLogger w cid).tarrRef ≠ r →
      (ts.foldl (fun acc t => addTransportW acc cid t) w).tarrs.getD r [] =
        w.tarrs.getD r [] := by
  intro ts
  induction ts with
  | nil => intro w _; rfl
  | cons t rest ih =>
    intro w h
    simp only [List.foldl_cons]
    rw [ih (addTransportW w cid t) (by rw [getLogger_addTransportW]; exact h),
      tarrs_getD_addTransportW_ne w cid t r h]

/-! ### Characterization of `child` -/

theorem childW_fst (env : Env) (w : World) (pid : Nat) (s : ScopeArg)
    (opts : LoggerOptions) :
    (childW env w pid s opts).1 =
      (tarrContents (clearTransportsW (constructLogger env w
          (.freshScope (scopeContents w pid ++ scopeArgToList s))
          (spreadOptions (getLogger w pid).options opts)).1 w.loggers.length) pid).foldl
        (fun acc t => addTransportW acc w.loggers.length t)
        (clearTransportsW (constructLogger env w
          (.freshScope (scopeContents w pid ++ scopeArgToList s))
          (spreadOptions (getLogger w pid).options opts)).1 w.loggers.length) := by
  cases s <;> rfl

theorem childW_snd (env : Env) (w : World) (pid : Nat) (s : ScopeArg)
    (opts : LoggerOptions) :
    (childW env w pid s opts).2 = w.loggers.length := by
  cases s <;> rfl

/-- Full characterization of `child` on a well-formed parent: the new
logger id, the heap shape, the child's record, the copied transport
contents, and the untouched parent state. -/
theorem childW_spec (env : Env) (w : World) (pid : Nat) (s : ScopeArg)
    (opts : LoggerOptions)
    (hpid : pid < w.loggers.length)
    (href : (getLogger w pid).tarrRef < w.tarrs.length) :
    (childW env w pid s opts).2 = w.loggers.length ∧
    (childW env w pid s opts).1.scopes =
      w.scopes ++ [scopeContents w pid ++ scopeArgToList s] ∧
    getLogger (childW env w pid s opts).1 w.loggers.length =
      ⟨w.scopes.length,
        initFromEnvironment env (mergeDefaults w.globalLevel
          (spreadOptions (getLogger w pid).options opts)),
        w.tarrs.length + 1⟩ ∧
    tarrContents (childW env w pid s opts).1 w.loggers.length =
      tarrContents w pid ∧
    (∀ j, j < w.loggers.length →
      getLogger (childW env w pid s opts).1 j = getLogger w j) ∧
    (∀ r, r < w.tarrs.length →
      (childW env w pid s opts).1.tarrs.getD r [] = w.tarrs.getD r []) ∧
    (childW env w pid s opts).1.tarrs.length = w.tarrs.length + 2 ∧
    (childW env w pid s opts).1.globalLevel = w.globalLevel ∧
    (childW env w pid s opts).1.loggers.length = w.loggers.length + 1 := by
  have hW1tarrs :
      (constructLogger env w
        (.freshScope (scopeContents w pid ++ scopeArgToList s))
        (spreadOptions (getLogger w pid).options opts)).1.tarrs =
      w.tarrs ++ [[w.ntrans]] := constructLogger_tarrs _ _ _ _
  have hW1len :
      (constructLogger env w
        (.freshScope (scopeContents w pid ++ scopeArgToList s))
        (spreadOptions (getLogger w pid).options opts)).1.loggers.length =
      w.loggers.length + 1 := by
    rw [constructLogger_loggers_fresh]; simp
  have hne : w.loggers.length ≠ pid := fun h => absurd (h ▸ hpid) (Nat.lt_irrefl _)
  -- the parent's record survives construction and clearTransports
  have hpar2 :
      getLogger (clearTransportsW (constructLogger env w
        (.freshScope (scopeContents w pid ++ scopeArgToList s))
        (spreadOptions (getLogger w pid).options opts)).1 w.loggers.length) pid =
      getLogger w pid := by
    rw [getLogger_clearTransportsW_ne _ _ _ hne,
      getLogger_constructLogger_lt _ _ _ _ _ hpid]
  -- the parent's transport cell survives as well
  have hparc2 :
      tarrContents (clearTransportsW (constructLogger env w
        (.freshScope (scopeContents w pid ++ scopeArgToList s))
        (spreadOptions (getLogger w pid).options opts)).1 w.loggers.length) pid =
      tarrContents w pid := by
    simp only [tarrContents, hpar2, clearTransportsW_tarrs]
    rw [List.getD_append _ _ _ _ (by rw [hW1tarrs]; simp; omega), hW1tarrs,
      List.getD_append _ _ _ _ href]
  -- the child's record after clearTransports
  have hchild2 :
      getLogger (clearTransportsW (constructLogger env w
        (.freshScope (scopeContents w pid ++ scopeArgToList s))
        (spreadOptions (getLogger w pid).options opts)).1 w.loggers.length)
        w.loggers.length =
      ⟨w.scopes.length,
        initFromEnvironment env (mergeDefaults w.globalLevel
          (spreadOptions (getLogger w pid).options opts)),
        w.tarrs.length + 1⟩ := by
    rw [getLogger_clearTransportsW_self _ _ (by rw [hW1len]; exact Nat.lt_succ_self _),
      getLogger_constructLogger_fresh, hW1tarrs]
    simp
  have hchildc2 :
      tarrContents (clearTransportsW (constructLogger env w
        (.freshScope (scopeContents w pid ++ scopeArgToList s))
        (spreadOptions (getLogger w pid).options opts)).1 w.loggers.length)
        w.loggers.length = [] :=
    tarrContents_clearTransportsW_self _ _ (by rw [hW1len]; exact Nat.lt_succ_self _)
  have hclen :
      (clearTransportsW (constructLogger env w
        (.freshScope (scopeContents w pid ++ scopeArgToList s))
        (spreadOptions (getLogger w pid).options opts)).1
        w.loggers.length).tarrs.length = w.tarrs.length + 2 := by
    rw [clearTransportsW_tarrs]
    simp [hW1tarrs]
  refine ⟨childW_snd env w pid s opts, ?_, ?_, ?_, ?_, ?_, ?_, ?_, ?_⟩
  · rw [childW_fst, foldl_addTransportW_scopes, clearTransportsW_scopes,
      constructLogger_scopes_fresh]
  · rw [childW_fst]
    rw [show getLogger ((tarrContents (clearTransportsW (constructLogger env w
        (.freshScope (scopeContents w pid ++ scopeArgToList s))
        (spreadOptions (getLogger w pid).options opts)).1 w.loggers.length) pid).foldl
        (fun acc t => addTransportW acc w.loggers.length t)
        (clearTransportsW (constructLogger env w
          (.freshScope (scopeContents w pid ++ scopeArgToList s))
          (spreadOptions (getLogger w pid).options opts)).1 w.loggers.length))
        w.loggers.length =
      getLogger (clearTransportsW (constructLogger env w
        (.freshScope (scopeContents w pid ++ scopeArgToList s))
        (spreadOptions (getLogger w pid).options opts)).1 w.loggers.length)
        w.loggers.length from by
        simp only [getLogger, foldl_addTransportW_loggers]]
    exact hchild2
  · rw [childW_fst, foldl_addTransportW_contents _ _ _
      (by rw [hchild2, hclen]; exact Nat.lt_succ_self _), hchildc2, hparc2]
    simp
  · intro j hj
    rw [childW_fst]
    rw [show getLogger ((tarrContents (clearTransportsW (constructLogger env w
        (.freshScope (scopeContents w pid ++ scopeArgToList s))
        (spreadOptions (getLogger w pid).options opts)).1 w.loggers.length) pid).foldl
        (fun acc t => addTransportW acc w.loggers.length t)
        (clearTransportsW (constructLogger env w
          (.freshScope (scopeContents w pid ++ scopeArgToList s))
          (spreadOptions (getLogger w pid).options opts)).1 w.loggers.length)) j =
      getLogger (clearTransportsW (constructLogger env w
        (.freshScope (scopeContents w pid ++ scopeArgToList s))
        (spreadOptions (getLogger w pid).options opts)).1 w.loggers.length) j from by
        simp only [getLogger, foldl_addTransportW_loggers]]
    rw [getLogger_clearTransportsW_ne _ _ _ (fun h => absurd (h ▸ hj) (Nat.lt_irrefl _)),
      getLogger_constructLogger_lt _ _ _ _ _ hj]
  · intro r hr
    rw [childW_fst, foldl_addTransportW_getD_ne _ _ _ _
      (by rw [hchild2]; show w.tarrs.length + 1 ≠ r; omega)]
    rw [clearTransportsW_tarrs, List.getD_append _ _ _ _
      (by rw [hW1tarrs]; simp; exact Nat.lt_succ_of_lt hr),
      hW1tarrs, List.getD_append _ _ _ _ hr]
  · rw [childW_fst, foldl_addTransportW_tarrs_length]
    exact hclen
  · rw [childW_fst, foldl_addTransportW_globalLevel]
    simp only [clearTransportsW]
    exact constructLogger_globalLevel _ _ _ _
  · rw [childW_fst]
    rw [show ((tarrContents (clearTransportsW (constructLogger env w
        (.freshScope (scopeContents w pid ++ scopeArgToList s))
        (spreadOptions (getLogger w pid).options opts)).1 w.loggers.length) pid).foldl
        (fun acc t => addTransportW acc w.loggers.length t)
        (clearTransportsW (constructLogger env w
          (.freshScope (scopeContents w pid ++ scopeArgToList s))
          (spreadOptions (getLogger w pid).options opts)).1 w.loggers.length)).loggers =
      (clearTransportsW (constructLogger env w
        (.freshScope (scopeContents w pid ++ scopeArgToList s))
        (spreadOptions (getLogger w pid).options opts)).1 w.loggers.length).loggers
      from foldl_addTransportW_loggers _ _ _]
    simp only [clearTransportsW]
    rw [List.length_set, hW1len]

/-! ### Facts about dispatch -/

theorem fanout_calls (b : Behaviors) (e : LogEntry) :
    ∀ ts : List Nat, (fanout b ts e).1 = ts.map (fun t => (t, e)) := by
  intro ts
  induction ts with
  | nil => rfl
  | cons t rest ih => simp [fanout, ih]

theorem logW_pass (b : Behaviors) (w : World) (i : Nat) (lvl : LogLevel)
    (msg : String) (args : List MVal) (now : Nat)
    (h : shouldLog w i lvl = true) :
    logW b w i lvl msg args now =
      ({ w with scopes := w.scopes ++ [scopeContents w i] },
       ⟨some (mkEntry w i lvl msg args now),
        (fanout b (tarrContents w i) (mkEntry w i lvl msg args now)).1,
        (fanout b (tarrContents w i) (mkEntry w i lvl msg args now)).2⟩) := by
  simp [logW, h, mkEntry, tarrContents, scopeContents]

theorem logW_fail (b : Behaviors) (w : World) (i : Nat) (lvl : LogLevel)
    (msg : String) (args : List MVal) (now : Nat)
    (h : shouldLog w i lvl = false) :
    logW b w i lvl msg args now = (w, ⟨none, [], []⟩) := by
  simp [logW, h]

/-! ### Facts about the environment step -/

theorem applyEnvLevel_metadata (env : Env) (o : LoggerOptions) :
    (applyEnvLevel env o).metadata = o.metadata := by
  unfold applyEnvLevel
  repeat' split
  all_goals rfl

theorem applyEnvLevel_timestamp (env : Env) (o : LoggerOptions) :
    (applyEnvLevel env o).timestamp = o.timestamp := by
  unfold applyEnvLevel
  repeat' split
  all_goals rfl

theorem applyEnvColour_metadata (env : Env) (o : LoggerOptions) :
    (applyEnvColour env o).metadata = o.metadata := by
  unfold applyEnvColour
  split <;> rfl

theorem applyEnvColour_timestamp (env : Env) (o : LoggerOptions) :
    (applyEnvColour env o).timestamp = o.timestamp := by
  unfold applyEnvColour
  split <;> rfl

theorem applyEnvColour_level (env : Env) (o : LoggerOptions) :
    (applyEnvColour env o).level = o.level := by
  unfold applyEnvColour
  split <;> rfl

theorem initFromEnvironment_metadata (env : Env) (o : LoggerOptions) :
    (initFromEnvironment env o).metadata = o.metadata := by
  rw [initFromEnvironment, applyEnvColour_metadata, applyEnvLevel_metadata]

theorem initFromEnvironment_timestamp (env : Env) (o : LoggerOptions) :
    (initFromEnvironment env o).timestamp = o.timestamp := by
  rw [initFromEnvironment, applyEnvColour_timestamp, applyEnvLevel_timestamp]

theorem initFromEnvironment_level_unrecognized (env : Env) (o : LoggerOptions)
    (h : envLevelUnrecognized env = true) :
    (initFromEnvironment env o).level = o.level := by
  rw [initFromEnvironment, applyEnvColour_level]
  unfold applyEnvLevel
  unfold envLevelUnrecognized at h
  cases hE : getEnv env "LOG_LEVEL" with
  | none => rfl
  | some s =>
    rw [hE] at h
    have h2 : (s.data.all (fun c => c.toNat < 128) &&
        (enumLookup (jsToUpper s)).isNone) = true := h
    rw [Bool.and_eq_true] at h2
    have hn : enumLookup (jsToUpper s) = none := by
      have h3 := h2.2
      rwa [Option.isNone_iff_eq_none] at h3
    show (if jsToUpper s ≠ "" then
        (match enumLookup (jsToUpper s) with
          | some v => { o with level := some v }
          | none => o)
      else o).level = o.level
    rw [hn]
    split <;> rfl

/-! ### Frame lemma: no operation writes an existing scope cell -/

theorem applyOp_scopes_ext (env : Env) (b : Behaviors) (w : World) (op : Op) :
    ∃ ext, (applyOp env b w op).scopes = w.scopes ++ ext := by
  cases op with
  | opNewLogger s opts =>
    exact ⟨[scopeArgToList s], constructLogger_scopes_fresh env w _ opts⟩
  | opChild pid s opts =>
    refine ⟨[scopeContents w pid ++ scopeArgToList s], ?_⟩
    show (childW env w pid s opts).1.scopes = _
    rw [childW_fst, foldl_addTransportW_scopes, clearTransportsW_scopes,
      constructLogger_scopes_fresh]
  | opWithMetadata i extra =>
    exact ⟨[], by simp [applyOp, withMetadataW, constructLogger_scopes_shared]⟩
  | opAddTransport i t => exact ⟨[], by simp [applyOp, addTransportW_scopes]⟩
  | opRemoveTransport i t => exact ⟨[], by simp [applyOp, removeTransportW_scopes]⟩
  | opClearTransports i => exact ⟨[], by simp [applyOp, clearTransportsW_scopes]⟩
  | opSetGlobalLevel l => exact ⟨[], by simp [applyOp, setGlobalLevelW]⟩
  | opNewTransport => exact ⟨[], by simp [applyOp, newTransportW]⟩
  | opLog i lvl msg args now =>
    cases hS : shouldLog w i lvl with
    | true =>
      refine ⟨[scopeContents w i], ?_⟩
      show (logW b w i lvl msg args now).1.scopes = _
      rw [logW_pass b w i lvl msg args now hS]
    | false =>
      refine ⟨[], ?_⟩
      show (logW b w i lvl msg args now).1.scopes = _
      rw [logW_fail b w i lvl msg args now hS]
      simp

theorem applyOps_scopes_getD (env : Env) (b : Behaviors) :
    ∀ (ops : List Op) (w : World) (j : Nat), j < w.scopes.length →
      (applyOps env b ops w).scopes.getD j [] = w.scopes.getD j [] := by
  intro ops
  induction ops with
  | nil => intro w j _; rfl
  | cons op rest ih =>
    intro w j hj
    obtain ⟨ext, hext⟩ := applyOp_scopes_ext env b w op
    have hlen : j < (applyOp env b w op).scopes.length := by
      rw [hext, List.length_append]
      omega
    calc (applyOps env b (op :: rest) w).scopes.getD j []
        = (applyOps env b rest (applyOp env b w op)).scopes.getD j [] := rfl
      _ = (applyOp env b w op).scopes.getD j [] := ih _ j hlen
      _ = w.scopes.getD j [] := by rw [hext, List.getD_append _ _ _ _ hj]

/-! ### Concrete fixtures -/

/-- C1: the claim says a node constructed without an explicit `level`
re-reads the global registry on every call, so after
`setGlobalLevel(ERROR)` a `.warn()` on a node created under INFO is
suppressed.  The code instead snapshots `Logger.globalLevel` into
`options.level` inside the constructor's option spread, so the node's
stored level is INFO, `shouldLog(WARN)` is true after the global level
is raised to ERROR, and the `.warn()` call still reaches the node's
one (default console) transport.  This theorem evaluates the code at
that failing input. -/
theorem C1_warn_still_emitted_after_global_error :
    (getLogger c1Mk.1 c1Mk.2).options.level = some (.lv .INFO) ∧
    c1After.globalLevel = .ERROR ∧
    shouldLog c1After c1Mk.2 .WARN = true ∧
    (warnW unitBehaviors c1After c1Mk.2 "m" [] 0).2.calls =
      [(0, ⟨.WARN, "m", 0, 1, [], none⟩)] :=
  ⟨rfl, rfl, rfl, rfl⟩

/-! ### C2 -/

/-- C2: the claim says the node returned by `withMetadata` carries the
original node's transport sequence (same instances, same order).  The
code's `withMetadata` calls `new Logger(...)` and never copies
`this.transports` (unlike `child`), so the derived node ends up with
only the constructor's freshly allocated default `ConsoleTransport`
(id 2 here), not the original's `[0, 1]`.  This theorem evaluates the
code at that failing input. -/
theorem C2_withMetadata_loses_transports :
    tarrContents c2W c2Mk.2 = [0, 1] ∧
    tarrContents c2D.1 c2D.2 = [2] ∧
    tarrContents c2D.1 c2Mk.2 = [0, 1] ∧
    tarrContents c2D.1 c2D.2 ≠ tarrContents c2D.1 c2Mk.2 :=
  ⟨rfl, rfl, rfl, by decide⟩

/-! ### C3 -/

/-- C3 counterexample: `"3"` is not a recognized level name
(TRACE … OFF), yet construction under `LOG_LEVEL=3` does not leave
`options.level` unchanged: `"3" in LogLevel` is true through the
numeric enum's reverse mapping, so `LogLevel["3"]` — the *string*
`"WARN"` — is stored into `options.level`, where the default-built
node stores the numeric INFO. -/
theorem C3_digit_env_string_changes_level :
    (getLogger c3Mk.1 c3Mk.2).options.level = some (.nm "WARN") ∧
    (getLogger c3MkDefault.1 c3MkDefault.2).options.level = some (.lv .INFO) ∧
    (getLogger c3Mk.1 c3Mk.2).options.level ≠
      (getLogger c3MkDefault.1 c3MkDefault.2).options.level :=
  ⟨rfl, rfl, by decide⟩

/-- C3 amended: for every `LOG_LEVEL` string of ASCII characters (on
which the uppercase model agrees with JavaScript's Unicode-aware
`toUpperCase`) whose uppercasing is neither a level name nor one of
the reverse-mapping digit keys `"0"`…`"6"` (so not a key of the enum
object at all), the environment step leaves `options.level`
unchanged, and a node constructed under such an environment keeps the
level its option spread produced (explicit level if given, else the
global level). -/
theorem C3_unrecognized_env_level_ignored (env : Env) (o : LoggerOptions)
    (w : World) (s : ScopeArg) (h : envLevelUnrecognized env = true) :
    (initFromEnvironment env o).level = o.level ∧
    (getLogger (newLoggerW env w s o).1 (newLoggerW env w s o).2).options.level =
      (o.level).orElse (fun _ => some (.lv w.globalLevel)) := by
  refine ⟨initFromEnvironment_level_unrecognized env o h, ?_⟩
  show (getLogger (constructLogger env w (.freshScope (scopeArgToList s)) o).1
    (constructLogger env w (.freshScope (scopeArgToList s)) o).2).options.level = _
  rw [constructLogger_snd, getLogger_constructLogger_fresh]
  show (initFromEnvironment env (mergeDefaults w.globalLevel o)).level = _
  rw [initFromEnvironment_level_unrecognized env _ h]
  rfl

/-- Witness for the amended C3 at the concrete unrecognized string
`"VERBOSE"`. -/
theorem C3_unrecognized_env_level_ignored_witness :
    envLevelUnrecognized c3WitnessEnv = true ∧
    ((initFromEnvironment c3WitnessEnv {}).level = ({} : LoggerOptions).level ∧
     (getLogger (newLoggerW c3WitnessEnv initialWorld (.one "app") {}).1
       (newLoggerW c3WitnessEnv initialWorld (.one "app") {}).2).options.level =
       (({} : LoggerOptions).level).orElse
         (fun _ => some (.lv initialWorld.globalLevel))) :=
  ⟨by decide,
   C3_unrecognized_env_level_ignored c3WitnessEnv {} initialWorld (.one "app")
     (by decide)⟩

/-! ### C4 -/

/-- C4: on a node whose transports are `[T1, T2]` where T1 throws
synchronously and T2 returns normally, a passing `.info("x")` call
constructs one entry, invokes T1 then T2 each exactly once with that
entry (so T2 records exactly one entry), and writes exactly the
`"transport error"` diagnostic for T1's failure; the throw is caught
inside the fan-out loop, so the call returns a result instead of
propagating the exception. -/
theorem C4_transport_isolation (b : Behaviors) (w : World) (i t1 t2 : Nat)
    (msg : String) (args : List MVal) (now : Nat) (err : String)
    (hT : tarrContents w i = [t1, t2])
    (h1 : ∀ e, b t1 e = .throwErr err)
    (h2 : ∀ e, b t2 e = .retUnit)
    (hpass : shouldLog w i .INFO = true) :
    (infoW b w i msg args now).2.entry = some (mkEntry w i .INFO msg args now) ∧
    (infoW b w i msg args now).2.calls =
      [(t1, mkEntry w i .INFO msg args now), (t2, mkEntry w i .INFO msg args now)] ∧
    (infoW b w i msg args now).2.diags = [.syncError err] := by
  unfold infoW
  rw [logW_pass b w i .INFO msg args now hpass, hT]
  refine ⟨rfl, ?_, ?_⟩
  · simp [fanout]
  · simp [fanout, transportCall, h1, h2]

/-- Witness for C4 at a concrete node with transports `[5, 7]`, where
transport 5 throws `"boom"`. -/
theorem C4_transport_isolation_witness :
    tarrContents c4World 0 = [5, 7] ∧
    shouldLog c4World 0 .INFO = true ∧
    ((infoW c4B c4World 0 "x" [] 0).2.entry = some (mkEntry c4World 0 .INFO "x" [] 0) ∧
     (infoW c4B c4World 0 "x" [] 0).2.calls =
       [(5, mkEntry c4World 0 .INFO "x" [] 0), (7, mkEntry c4World 0 .INFO "x" [] 0)] ∧
     (infoW c4B c4World 0 "x" [] 0).2.diags = [.syncError "boom"]) :=
  ⟨rfl, rfl,
   C4_transport_isolation c4B c4World 0 5 7 "x" [] 0 "boom" rfl
     (fun _ => rfl) (fun _ => rfl) rfl⟩

/-! ### C5 -/

/-- C5: `shouldLog(L)` on a node whose stored level is the numeric
level E holds exactly when `levelNum E ≤ levelNum L` under the order
TRACE(0) < DEBUG(1) < INFO(2) < WARN(3) < ERROR(4) < FATAL(5) <
OFF(6); and on a node whose effective level (stored level, else the
global registry) is OFF, all six severity methods invoke zero
transports. -/
theorem C5_level_filter_contract :
    (∀ (w : World) (i : Nat) (lvl eff : LogLevel),
        (getLogger w i).options.level = some (.lv eff) →
        (shouldLog w i lvl = true ↔ levelNum eff ≤ levelNum lvl)) ∧
    (∀ (w : World) (i : Nat),
        ((getLogger w i).options.level).getD (.lv w.globalLevel) = .lv .OFF →
        ∀ (b : Behaviors) (msg : String) (args : List MVal) (now : Nat),
          (traceW b w i msg args now).2.calls = [] ∧
          (debugW b w i msg args now).2.calls = [] ∧
          (infoW b w i msg args now).2.calls = [] ∧
          (warnW b w i msg args now).2.calls = [] ∧
          (errorW b w i msg args now).2.calls = [] ∧
          (fatalW b w i msg args now).2.calls = []) := by
  constructor
  · intro w i lvl eff h
    simp [shouldLog, h, jsGE]
  · intro w i h b msg args now
    have hs : ∀ lvl : LogLevel, levelNum lvl < 6 → shouldLog w i lvl = false := by
      intro lvl hl
      cases lvl <;>
        first
        | (simp only [shouldLog, h, jsGE]; rfl)
        | (exact absurd hl (by decide))
    refine ⟨?_, ?_, ?_, ?_, ?_, ?_⟩
    · unfold traceW; rw [logW_fail _ _ _ _ _ _ _ (hs .TRACE (by decide))]
    · unfold debugW; rw [logW_fail _ _ _ _ _ _ _ (hs .DEBUG (by decide))]
    · unfold infoW; rw [logW_fail _ _ _ _ _ _ _ (hs .INFO (by decide))]
    · unfold warnW; rw [logW_fail _ _ _ _ _ _ _ (hs .WARN (by decide))]
    · unfold errorW; rw [logW_fail _ _ _ _ _ _ _ (hs .ERROR (by decide))]
    · unfold fatalW; rw [logW_fail _ _ _ _ _ _ _ (hs .FATAL (by decide))]

/-- Witness for C5 at a node with stored level WARN (filter query at
ERROR) and a node with stored level OFF. -/
theorem C5_level_filter_contract_witness :
    (getLogger c5World 0).options.level = some (.lv .WARN) ∧
    (shouldLog c5World 0 .ERROR = true ↔ levelNum .WARN ≤ levelNum .ERROR) ∧
    ((getLogger c5OffWorld 0).options.level).getD (.lv c5OffWorld.globalLevel) =
      .lv .OFF ∧
    ((traceW unitBehaviors c5OffWorld 0 "m" [] 0).2.calls = [] ∧
     (debugW unitBehaviors c5OffWorld 0 "m" [] 0).2.calls = [] ∧
     (infoW unitBehaviors c5OffWorld 0 "m" [] 0).2.calls = [] ∧
     (warnW unitBehaviors c5OffWorld 0 "m" [] 0).2.calls = [] ∧
     (errorW unitBehaviors c5OffWorld 0 "m" [] 0).2.calls = [] ∧
     (fatalW unitBehaviors c5OffWorld 0 "m" [] 0).2.calls = []) :=
  ⟨rfl, C5_level_filter_contract.1 c5World 0 .ERROR .WARN rfl, rfl,
   C5_level_filter_contract.2 c5OffWorld 0 rfl unitBehaviors "m" [] 0⟩

/-! ### C6 -/

/-- C6: a log call that fails the level filter is a complete no-op:
the world is unchanged (in particular no scope-copy is allocated and
no timestamping happens, since no entry is built), no `LogEntry` is
constructed, no transport is invoked, and nothing is written to the
diagnostic sink. -/
theorem C6_suppressed_call_is_noop (b : Behaviors) (w : World) (i : Nat)
    (lvl : LogLevel) (msg : String) (args : List MVal) (now : Nat)
    (h : shouldLog w i lvl = false) :
    logW b w i lvl msg args now = (w, ⟨none, [], []⟩) :=
  logW_fail b w i lvl msg args now h

/-- Witness for C6: an INFO call on a node with level ERROR. -/
theorem C6_suppressed_call_is_noop_witness :
    shouldLog c6World 0 .INFO = false ∧
    logW unitBehaviors c6World 0 .INFO "m" [] 3 = (c6World, ⟨none, [], []⟩) :=
  ⟨rfl, C6_suppressed_call_is_noop unitBehaviors c6World 0 .INFO "m" [] 3 rfl⟩

/-! ### C7 -/

/-- C7: `child(extraScope)` on a parent produces a node whose scope is
the parent's scope concatenated with the extra scope (a single string
counting as a one-element sequence), and every entry a passing log
call on the child dispatches carries exactly that concatenated
scope. -/
theorem C7_child_scope_concatenation (env : Env) (w : World) (pid : Nat)
    (s : ScopeArg) (opts : LoggerOptions)
    (hpid : pid < w.loggers.length)
    (href : (getLogger w pid).tarrRef < w.tarrs.length) :
    scopeContents (childW env w pid s opts).1 (childW env w pid s opts).2 =
      scopeContents w pid ++ scopeArgToList s ∧
    ∀ (b : Behaviors) (lvl : LogLevel) (msg : String) (args : List MVal) (now : Nat),
      shouldLog (childW env w pid s opts).1 (childW env w pid s opts).2 lvl = true →
      ∃ e, (logW b (childW env w pid s opts).1 (childW env w pid s opts).2
              lvl msg args now).2.entry = some e ∧
        readEntryScope
          (logW b (childW env w pid s opts).1 (childW env w pid s opts).2
            lvl msg args now).1 e =
          scopeContents w pid ++ scopeArgToList s := by
  obtain ⟨hsnd, hscopes, hchild, -, -, -, -, -, -⟩ :=
    childW_spec env w pid s opts hpid href
  have hsc : scopeContents (childW env w pid s opts).1 (childW env w pid s opts).2 =
      scopeContents w pid ++ scopeArgToList s := by
    rw [hsnd, scopeContents, hchild, hscopes]
    exact getD_snoc_self _ _ _
  refine ⟨hsc, ?_⟩
  intro b lvl msg args now hpass
  rw [logW_pass _ _ _ _ _ _ _ hpass]
  refine ⟨mkEntry (childW env w pid s opts).1 (childW env w pid s opts).2
    lvl msg args now, rfl, ?_⟩
  rw [readEntryScope, mkEntry]
  rw [show ({ (childW env w pid s opts).1 with
      scopes := (childW env w pid s opts).1.scopes ++
        [scopeContents (childW env w pid s opts).1 (childW env w pid s opts).2] } :
      World).scopes =
    (childW env w pid s opts).1.scopes ++
      [scopeContents (childW env w pid s opts).1 (childW env w pid s opts).2] from rfl]
  rw [getD_snoc_self]
  exact hsc

/-- Witness for C7 on the spec's chained example: a root with scope
`["app"]`, `child("api")`, then `child(["auth","login"])`, whose
resulting scope evaluates to `["app","api","auth","login"]`. -/
theorem C7_child_scope_concatenation_witness :
    c7Api.2 < c7Api.1.loggers.length ∧
    (getLogger c7Api.1 c7Api.2).tarrRef < c7Api.1.tarrs.length ∧
    scopeContents c7Api.1 c7Api.2 = ["app", "api"] ∧
    scopeContents (childW emptyEnv c7Api.1 c7Api.2 (.many ["auth", "login"]) {}).1
      (childW emptyEnv c7Api.1 c7Api.2 (.many ["auth", "login"]) {}).2 =
      ["app", "api", "auth", "login"] ∧
    (scopeContents (childW emptyEnv c7Api.1 c7Api.2 (.many ["auth", "login"]) {}).1
       (childW emptyEnv c7Api.1 c7Api.2 (.many ["auth", "login"]) {}).2 =
       scopeContents c7Api.1 c7Api.2 ++ scopeArgToList (.many ["auth", "login"]) ∧
     ∀ (b : Behaviors) (lvl : LogLevel) (msg : String) (args : List MVal) (now : Nat),
       shouldLog (childW emptyEnv c7Api.1 c7Api.2 (.many ["auth", "login"]) {}).1
         (childW emptyEnv c7Api.1 c7Api.2 (.many ["auth", "login"]) {}).2 lvl = true →
       ∃ e, (logW b (childW emptyEnv c7Api.1 c7Api.2 (.many ["auth", "login"]) {}).1
               (childW emptyEnv c7Api.1 c7Api.2 (.many ["auth", "login"]) {}).2
               lvl msg args now).2.entry = some e ∧
         readEntryScope
           (logW b (childW emptyEnv c7Api.1 c7Api.2 (.many ["auth", "login"]) {}).1
             (childW emptyEnv c7Api.1 c7Api.2 (.many ["auth", "login"]) {}).2
             lvl msg args now).1 e =
           scopeContents c7Api.1 c7Api.2 ++ scopeArgToList (.many ["auth", "login"])) :=
  ⟨by decide, by decide, by decide, by decide,
   C7_child_scope_concatenation emptyEnv c7Api.1 c7Api.2 (.many ["auth", "login"]) {}
     (by decide) (by decide)⟩

/-! ### C8 -/

/-- C8: `withMetadata(extra)` yields a node with the same scope whose
metadata is the shallow merge of the current metadata (the empty
object if absent) with `extra`, keys of `extra` winning, and entries
dispatched by the derived node carry exactly that merged metadata. -/
theorem C8_withMetadata_merges_metadata (env : Env) (w : World) (i : Nat)
    (extra : Obj) (_hi : i < w.loggers.length) :
    scopeContents (withMetadataW env w i extra).1 (withMetadataW env w i extra).2 =
      scopeContents w i ∧
    ∃ m : Obj,
      (getLogger (withMetadataW env w i extra).1
        (withMetadataW env w i extra).2).options.metadata = some m ∧
      (∀ k, m k =
        ((extra k).orElse
          (fun _ => (((getLogger w i).options.metadata).getD objEmpty) k))) ∧
      ∀ (b : Behaviors) (lvl : LogLevel) (msg : String) (args : List MVal) (now : Nat),
        shouldLog (withMetadataW env w i extra).1 (withMetadataW env w i extra).2
          lvl = true →
        ∃ e, (logW b (withMetadataW env w i extra).1 (withMetadataW env w i extra).2
                lvl msg args now).2.entry = some e ∧
          e.metadata = some m := by
  have hw : withMetadataW env w i extra =
      constructLogger env w (.sharedScope (getLogger w i).scopeRef)
        { (getLogger w i).options with
          metadata := some (objSpread (((getLogger w i).options.metadata).getD objEmpty)
            extra) } := rfl
  have hsnd : (withMetadataW env w i extra).2 = w.loggers.length := by
    rw [hw, constructLogger_snd]
  have hget : getLogger (withMetadataW env w i extra).1 w.loggers.length =
      ⟨(getLogger w i).scopeRef,
        initFromEnvironment env (mergeDefaults w.globalLevel
          { (getLogger w i).options with
            metadata := some (objSpread (((getLogger w i).options.metadata).getD objEmpty)
              extra) }),
        w.tarrs.length⟩ := by
    rw [hw, getLogger_constructLogger_shared]
  have hmeta : (getLogger (withMetadataW env w i extra).1
      (withMetadataW env w i extra).2).options.metadata =
      some (objSpread (((getLogger w i).options.metadata).getD objEmpty) extra) := by
    rw [hsnd, hget]
    show (initFromEnvironment env _).metadata = _
    rw [initFromEnvironment_metadata]
    rfl
  refine ⟨?_, objSpread (((getLogger w i).options.metadata).getD objEmpty) extra,
    hmeta, fun k => rfl, ?_⟩
  · rw [hsnd, scopeContents, hget]
    show (withMetadataW env w i extra).1.scopes.getD (getLogger w i).scopeRef [] = _
    rw [hw, constructLogger_scopes_shared]
    rfl
  · intro b lvl msg args now hpass
    rw [logW_pass _ _ _ _ _ _ _ hpass]
    exact ⟨mkEntry (withMetadataW env w i extra).1 (withMetadataW env w i extra).2
      lvl msg args now, rfl, hmeta⟩

/-- Witness for C8 on the spec's example: metadata `a:1, b:2` merged
with `b:3, c:4` gives lookups `a:1, b:3, c:4` on the derived node. -/
theorem C8_withMetadata_merges_metadata_witness :
    (0 < c8World.loggers.length ∧
     scopeContents c8D.1 c8D.2 = scopeContents c8World 0 ∧
     ∃ m : Obj,
       (getLogger c8D.1 c8D.2).options.metadata = some m ∧
       (∀ k, m k =
         ((c8Extra k).orElse
           (fun _ => (((getLogger c8World 0).options.metadata).getD objEmpty) k))) ∧
       ∀ (b : Behaviors) (lvl : LogLevel) (msg : String) (args : List MVal) (now : Nat),
         shouldLog c8D.1 c8D.2 lvl = true →
         ∃ e, (logW b c8D.1 c8D.2 lvl msg args now).2.entry = some e ∧
           e.metadata = some m) ∧
    ((getLogger c8D.1 c8D.2).options.metadata.getD objEmpty) "a" = some (.num 1) ∧
    ((getLogger c8D.1 c8D.2).options.metadata.getD objEmpty) "b" = some (.num 3) ∧
    ((getLogger c8D.1 c8D.2).options.metadata.getD objEmpty) "c" = some (.num 4) :=
  ⟨⟨by decide, C8_withMetadata_merges_metadata emptyEnv c8World 0 c8Extra (by decide)⟩,
   rfl, rfl, rfl⟩

/-! ### C9 -/

/-- C9: the transport-array container is per node.  A derived child
starts with exactly the parent's transport list (same ids, same
order); `addTransport` on the child leaves the parent's list
untouched; `removeTransport` on the child never changes the parent's
list and `removeTransport` on the parent never changes the child's
list. -/
theorem C9_child_transport_independence (env : Env) (w : World) (pid : Nat)
    (s : ScopeArg) (opts : LoggerOptions)
    (hpid : pid < w.loggers.length)
    (href : (getLogger w pid).tarrRef < w.tarrs.length) :
    tarrContents (childW env w pid s opts).1 (childW env w pid s opts).2 =
      tarrContents w pid ∧
    tarrContents (childW env w pid s opts).1 pid = tarrContents w pid ∧
    (∀ t2, tarrContents (addTransportW (childW env w pid s opts).1
        (childW env w pid s opts).2 t2) pid = tarrContents w pid ∧
      tarrContents (addTransportW (childW env w pid s opts).1
        (childW env w pid s opts).2 t2) (childW env w pid s opts).2 =
        tarrContents w pid ++ [t2]) ∧
    (∀ t, tarrContents (removeTransportW (childW env w pid s opts).1
        (childW env w pid s opts).2 t) pid = tarrContents w pid) ∧
    (∀ t, tarrContents (removeTransportW (childW env w pid s opts).1 pid t)
        (childW env w pid s opts).2 = tarrContents w pid) := by
  obtain ⟨hsnd, -, hchild, hcontents, hpar, hcell, hlen, -, -⟩ :=
    childW_spec env w pid s opts hpid href
  have hparget : getLogger (childW env w pid s opts).1 pid = getLogger w pid :=
    hpar pid hpid
  have hparc : tarrContents (childW env w pid s opts).1 pid = tarrContents w pid := by
    rw [tarrContents, hparget]
    exact hcell _ href
  have hcref : (getLogger (childW env w pid s opts).1
      (childW env w pid s opts).2).tarrRef = w.tarrs.length + 1 := by
    rw [hsnd, hchild]
  have hchildc : tarrContents (childW env w pid s opts).1
      (childW env w pid s opts).2 = tarrContents w pid := by
    rw [hsnd]
    exact hcontents
  have hparcell : (childW env w pid s opts).1.tarrs.getD
      (getLogger w pid).tarrRef [] = tarrContents w pid :=
    hcell _ href
  refine ⟨hchildc, hparc, ?_, ?_, ?_⟩
  · intro t2
    constructor
    · rw [tarrContents, getLogger_addTransportW, hparget,
        tarrs_getD_addTransportW_ne _ _ _ _ (by rw [hcref]; omega)]
      exact hparcell
    · rw [tarrContents_addTransportW_self _ _ _
        (by rw [hcref]; rw [hlen]; omega), hchildc]
  · intro t
    rw [tarrContents, getLogger_removeTransportW, hparget,
      tarrs_getD_removeTransportW_ne _ _ _ _ (by rw [hcref]; omega)]
    exact hparcell
  · intro t
    rw [tarrContents, getLogger_removeTransportW,
      tarrs_getD_removeTransportW_ne _ _ _ _ (by rw [hparget, hcref]; omega)]
    exact hchildc


/-- Witness for C9: parent with transport list `[0]`, child derived
with scope `"x"`; adding transport 5 to the child and removing
transport 0 from the child leave the parent's list `[0]`. -/
theorem C9_child_transport_independence_witness :
    c9Parent.2 < c9Parent.1.loggers.length ∧
    (getLogger c9Parent.1 c9Parent.2).tarrRef < c9Parent.1.tarrs.length ∧
    tarrContents c9Parent.1 c9Parent.2 = [0] ∧
    tarrContents (addTransportW c9Child.1 c9Child.2 5) c9Parent.2 = [0] ∧
    tarrContents (addTransportW c9Child.1 c9Child.2 5) c9Child.2 = [0, 5] ∧
    tarrContents (removeTransportW c9Child.1 c9Child.2 0) c9Parent.2 = [0] ∧
    (tarrContents c9Child.1 c9Child.2 = tarrContents c9Parent.1 c9Parent.2 ∧
     tarrContents c9Child.1 c9Parent.2 = tarrContents c9Parent.1 c9Parent.2 ∧
     (∀ t2, tarrContents (addTransportW c9Child.1 c9Child.2 t2) c9Parent.2 =
         tarrContents c9Parent.1 c9Parent.2 ∧
       tarrContents (addTransportW c9Child.1 c9Child.2 t2) c9Child.2 =
         tarrContents c9Parent.1 c9Parent.2 ++ [t2]) ∧
     (∀ t, tarrContents (removeTransportW c9Child.1 c9Child.2 t) c9Parent.2 =
         tarrContents c9Parent.1 c9Parent.2) ∧
     (∀ t, tarrContents (removeTransportW c9Child.1 c9Parent.2 t) c9Child.2 =
         tarrContents c9Parent.1 c9Parent.2)) := by
  refine ⟨by decide, by decide, by decide, by decide, by decide, by decide, ?_⟩
  exact C9_child_transport_independence emptyEnv c9Parent.1 c9Parent.2
    (.one "x") {} (by decide) (by decide)

/-! ### C10 -/

/-- C10: a passing log call constructs exactly one entry and hands
that same entry to every transport in the node's sequence, in order;
the entry's scope array is a fresh copy of the node's scope at call
time, and no later operation of the public surface — on any logger —
can change what that dispatched entry's scope array holds. -/
theorem C10_dispatched_entry_scope_immutable (env : Env) (b : Behaviors)
    (w : World) (i : Nat) (lvl : LogLevel) (msg : String) (args : List MVal)
    (now : Nat) (hpass : shouldLog w i lvl = true) :
    ∃ e, (logW b w i lvl msg args now).2.entry = some e ∧
      (logW b w i lvl msg args now).2.calls =
        (tarrContents w i).map (fun t => (t, e)) ∧
      readEntryScope (logW b w i lvl msg args now).1 e = scopeContents w i ∧
      ∀ ops : List Op,
        readEntryScope (applyOps env b ops (logW b w i lvl msg args now).1) e =
          readEntryScope (logW b w i lvl msg args now).1 e := by
  rw [logW_pass b w i lvl msg args now hpass]
  refine ⟨mkEntry w i lvl msg args now, rfl, fanout_calls b _ _, ?_, ?_⟩
  · rw [readEntryScope, mkEntry]
    exact getD_snoc_self _ _ _
  · intro ops
    rw [readEntryScope, readEntryScope, mkEntry]
    exact applyOps_scopes_getD env b ops _ w.scopes.length (by simp)

/-- Witness for C10 at a concrete node with scope `["app","db"]` and
an INFO call. -/
theorem C10_dispatched_entry_scope_immutable_witness :
    shouldLog c10Mk.1 c10Mk.2 .INFO = true ∧
    ∃ e, (logW unitBehaviors c10Mk.1 c10Mk.2 .INFO "m" [] 7).2.entry = some e ∧
      (logW unitBehaviors c10Mk.1 c10Mk.2 .INFO "m" [] 7).2.calls =
        (tarrContents c10Mk.1 c10Mk.2).map (fun t => (t, e)) ∧
      readEntryScope (logW unitBehaviors c10Mk.1 c10Mk.2 .INFO "m" [] 7).1 e =
        scopeContents c10Mk.1 c10Mk.2 ∧
      ∀ ops : List Op,
        readEntryScope
          (applyOps emptyEnv unitBehaviors ops
            (logW unitBehaviors c10Mk.1 c10Mk.2 .INFO "m" [] 7).1) e =
          readEntryScope (logW unitBehaviors c10Mk.1 c10Mk.2 .INFO "m" [] 7).1 e :=
  ⟨rfl, C10_dispatched_entry_scope_immutable emptyEnv unitBehaviors c10Mk.1
    c10Mk.2 .INFO "m" [] 7 rfl⟩

end Lily
